import Mathlib

/-!
Shallow embedding of the route-optimization core of the HHN City Hackathon
backend (`backend/services/route_optimizer.py`, `route_clustering.py`,
`route_calculator.py`, `driver_assigner.py`, `osrm_client.py`).

Conventions used throughout:
* Python floats are modelled as rationals.
* The haversine helper `calculate_distance` evaluates transcendental
  functions; it is modelled as an abstract pairwise distance function
  `dist : Point → Point → ℚ` threaded through every definition that calls
  it.  Every algorithm in the source consumes only the values of
  `calculate_distance`, never its internal formula.
* Outbound OSRM / Overpass network calls are modelled by an `Env` record:
  a `Bool` per availability probe and an `Option`-valued response per
  query; `none` covers "service unavailable / request raised / empty
  result", exactly the cases the source folds together via `try/except`
  plus `if not result:` checks.
* Python truthiness of optional numbers (`if lat and lon`, `a or b`) is
  modelled by `pyTruthy` / `pyOr`: both `None` and `0.0` are falsy.
* Unbounded `while` loops are modelled by fuel recursion; the fuel is
  always instantiated generously enough that it never cuts a run short
  on the inputs considered.
-/

/-- A geographic point: (latitude, longitude) in WGS-84 degrees, as rationals. -/
abbrev Point : Type := ℚ × ℚ

/-- Python truthiness of an optional number: `None` and `0.0` are falsy. -/
def pyTruthy : Option ℚ → Bool
  | none => false
  | some x => x != 0

/-- Python `a or b` on optional numbers: `a` when truthy, otherwise `b`. -/
def pyOr (a b : Option ℚ) : Option ℚ := if pyTruthy a then a else b

namespace RouteOptimizer

/-- `two_opt_swap` (route_optimizer.py): `route[:i] + route[i:j+1][::-1] + route[j+1:]`. -/
def two_opt_swap (route : List Nat) (i j : Nat) : List Nat :=
  route.take i ++ ((route.drop i).take (j + 1 - i)).reverse ++ route.drop (j + 1)

/-- `calculate_route_distance` (route_optimizer.py): total tour distance of a
route of order indices through distance matrix `D`, the depot sitting at
matrix index `0` and order `k` at matrix index `k + 1`.  The dense square
matrix the source precomputes is modelled as a total function. -/
def calculate_route_distance (D : Nat → Nat → ℚ) (route : List Nat) : ℚ :=
  if route.length < 2 then 0
  else
    let r := route.foldl
      (fun (acc : ℚ × Nat) (order_idx : Nat) =>
        (acc.1 + D acc.2 (order_idx + 1), order_idx + 1))
      (0, 0)
    r.1 + D r.2 0

/-- The inner double loop of `optimize_route_2opt`: the first strictly
improving 2-opt reversal of `route`, scanning `i` over `range(len - 1)` and
`j` over `range(i + 2, len)` exactly as the source does (it breaks out of
both loops at the first improvement), or `none` when no reversal improves. -/
def findImprovement (D : Nat → Nat → ℚ) (route : List Nat) : Option (List Nat) :=
  let L := route.length
  let bd := calculate_route_distance D route
  (((List.range (L - 1)).map fun i =>
      (List.range' (i + 2) (L - (i + 2))).map fun j => (i, j)).flatten).findSome?
    fun p =>
      let r := two_opt_swap route p.1 p.2
      if calculate_route_distance D r < bd then some r else none

/-- The `while improved and iteration < max_iterations` loop of
`optimize_route_2opt`; `fuel` is the number of remaining iterations
(`max_iterations = 100` at the call site). -/
def twoOptLoop (D : Nat → Nat → ℚ) : Nat → List Nat → List Nat
  | 0, route => route
  | fuel + 1, route =>
    match findImprovement D route with
    | none => route
    | some r => twoOptLoop D fuel r

/-- One candidate inspection inside the scan of `optimize_route_simple`:
keep the incumbent `(nearest_order_idx, nearest_distance)` unless the new
order index is strictly closer (`nearest_distance` starts at infinity,
modelled by `none`, so the first candidate always loads; order `k` sits at
matrix index `k + 1`). -/
def selectStep (D : Nat → Nat → ℚ) (current : Nat) (best : Option (Nat × ℚ))
    (o : Nat) : Option (Nat × ℚ) :=
  match best with
  | none => some (o, D current (o + 1))
  | some (b, bd) =>
    if D current (o + 1) < bd then some (o, D current (o + 1)) else some (b, bd)

/-- The inner scan of `optimize_route_simple`: the first unvisited order
index whose matrix distance from `current` is strictly smaller than that of
every earlier candidate. -/
def selectNearest (D : Nat → Nat → ℚ) (current : Nat) (unvisited : List Nat) :
    Option Nat :=
  (unvisited.foldl (selectStep D current) none).map Prod.fst

/-- The `while unvisited:` loop of `optimize_route_simple`: repeatedly append
the selected nearest order, remove it from `unvisited` (`list.remove` drops
the first occurrence) and move `current` to its matrix index. -/
def nnLoop (D : Nat → Nat → ℚ) : Nat → List Nat → Nat → List Nat → List Nat
  | 0, _, _, acc => acc.reverse
  | fuel + 1, unvisited, current, acc =>
    match selectNearest D current unvisited with
    | none => acc.reverse
    | some o => nnLoop D fuel (unvisited.erase o) (o + 1) (o :: acc)

/-- `optimize_route_simple` on its matrix-driven core: nearest-neighbour
construction for `n` orders over distance matrix `D`, starting at the depot
(matrix index 0).  One order is placed per iteration, so `n` iterations of
fuel complete the construction. -/
def optimize_route_simple (D : Nat → Nat → ℚ) (n : Nat) : List Nat :=
  nnLoop D n (List.range n) 0 []

/-- `optimize_route_2opt`: nearest-neighbour start, then up to 100 improving
2-opt passes over the same fixed matrix. -/
def optimize_route_2opt (D : Nat → Nat → ℚ) (n : Nat) : List Nat :=
  twoOptLoop D 100 (optimize_route_simple D n)

/-- Specification-side comparison step: prefer the new candidate exactly
when it is strictly closer, or equally close with a lower original index. -/
def lowStep (D : Nat → Nat → ℚ) (current : Nat) (best : Option Nat)
    (o : Nat) : Option Nat :=
  match best with
  | none => some o
  | some b =>
    if D current (o + 1) < D current (b + 1) ∨
        (D current (o + 1) = D current (b + 1) ∧ o < b) then some o
    else some b

/-- Specification-side selection, phrased from the claim: among the unvisited
stops, the one at minimal matrix distance from `current`, ties broken by the
lowest original stop index. -/
def selectNearestLowest (D : Nat → Nat → ℚ) (current : Nat)
    (unvisited : List Nat) : Option Nat :=
  unvisited.foldl (lowStep D current) none

/-- Incumbent-only version of `selectStep` (the cached distance dropped). -/
def minStep (D : Nat → Nat → ℚ) (current b o : Nat) : Nat :=
  if D current (o + 1) < D current (b + 1) then o else b

/-- Incumbent-only version of `lowStep`. -/
def lexStep (D : Nat → Nat → ℚ) (current b o : Nat) : Nat :=
  if D current (o + 1) < D current (b + 1) ∨
      (D current (o + 1) = D current (b + 1) ∧ o < b) then o
  else b

/-- Specification-side nearest-neighbour loop built on `selectNearestLowest`. -/
def nnSpecLoop (D : Nat → Nat → ℚ) : Nat → List Nat → Nat → List Nat → List Nat
  | 0, _, _, acc => acc.reverse
  | fuel + 1, unvisited, current, acc =>
    match selectNearestLowest D current unvisited with
    | none => acc.reverse
    | some o => nnSpecLoop D fuel (unvisited.erase o) (o + 1) (o :: acc)

/-- Specification-side nearest-neighbour route: at every step visit the
unvisited stop of minimal distance, lowest original index on ties. -/
def nearestNeighborSpecRoute (D : Nat → Nat → ℚ) (n : Nat) : List Nat :=
  nnSpecLoop D n (List.range n) 0 []

/-- No 2-opt reversal in the scan range of the source strictly reduces the
tour distance of `route` under matrix `D`. -/
def LocallyOptimal (D : Nat → Nat → ℚ) (route : List Nat) : Prop :=
  ∀ j, j < route.length → ∀ i, i < j → i + 2 ≤ j →
    calculate_route_distance D route ≤
      calculate_route_distance D (two_opt_swap route i j)

end RouteOptimizer

/-- Response of a single-pair OSRM route query (`get_route`): distance in
meters and duration in seconds. -/
structure RouteResultData where
  distance : ℚ
  duration : ℚ
deriving DecidableEq

/-- Response of a multi-point OSRM route query (`get_route_geometry`):
distance in meters, duration in seconds, optional GeoJSON line geometry. -/
structure GeomResultData where
  distance : ℚ
  duration : ℚ
  geometry : Option (List Point)
deriving DecidableEq

/-- A parking-candidate dict.  `none` in an `Option` field models an absent
key (the source also sometimes stores an explicit `None`; the two are
conflated here, which is exact for every code path the claims touch since
`pick_best` checks `is None` and `setdefault` only fires on absent keys for
the inputs considered). -/
structure Candidate where
  latitude : Option ℚ
  longitude : Option ℚ
  source : Option String
  distance_km : Option ℚ
deriving DecidableEq

/-- An order dict; `none` models an absent key.  Metadata fields that no
embedded code path reads (id, address, ...) are omitted. -/
structure Order where
  lat : Option ℚ
  lon : Option ℚ
  latitude : Option ℚ
  longitude : Option ℚ
deriving DecidableEq

/-- `order.get('lat') or order.get('latitude')` (Python `or`: falsy chains). -/
def orderLat (o : Order) : Option ℚ := pyOr o.lat o.latitude

/-- `order.get('lon') or order.get('longitude')`. -/
def orderLon (o : Order) : Option ℚ := pyOr o.lon o.longitude

/-- The external world as seen by the engine: module-import flags, the
`OSRM_ENABLED` setting, the availability probe, and one `Option`-valued
response function per outbound query.  `none` uniformly covers
"request raised / timed out / service answered with no result", which the
source collapses through `try/except` plus `if not result:` checks. -/
structure Env where
  osrmImport : Bool
  osmImport : Bool
  osrmEnabled : Bool
  osrmUp : Bool
  routeQuery : Point → Point → Option RouteResultData
  geoQuery : List Point → Option GeomResultData
  tableQuery : List Point → Option (List (List ℚ))
  osmFetch : Point → Option (List Candidate)
  dynamicParking : Point → ℚ → Option Candidate
  sample : List Point → Nat → List Point
  dist : Point → Point → ℚ

namespace OsrmClient

/-- `check_osrm_available`: `False` when `OSRM_ENABLED` is off, else the
probe result. -/
def check_osrm_available (env : Env) : Bool := env.osrmEnabled && env.osrmUp

/-- `get_route`: `None` when disabled or unavailable, else the (abstracted)
server response; `none` also covers a raised request or a no-route answer. -/
def get_route (env : Env) (a b : Point) : Option RouteResultData :=
  if !env.osrmEnabled || !check_osrm_available env then none
  else env.routeQuery a b

/-- `get_route_distance_and_time`: `(None, None)` when no route is obtained,
else `(distance / 1000, duration / 60)` (km, minutes). -/
def get_route_distance_and_time (env : Env) (a b : Point) :
    Option ℚ × Option ℚ :=
  match get_route env a b with
  | none => (none, none)
  | some r => (some (r.distance / 1000), some (r.duration / 60))

/-- `get_table`: `None` when disabled or unavailable, else the (abstracted)
distance-table response in meters. -/
def get_table (env : Env) (pts : List Point) : Option (List (List ℚ)) :=
  if !env.osrmEnabled || !check_osrm_available env then none
  else env.tableQuery pts

/-- `get_route_geometry`: `None` for fewer than two waypoints or an
unavailable server, else the (abstracted) multi-point response.  The
road-snapping preprocessing of the waypoints is folded into `geoQuery`. -/
def get_route_geometry (env : Env) (pts : List Point) : Option GeomResultData :=
  if pts.length < 2 then none
  else if !env.osrmEnabled || !check_osrm_available env then none
  else env.geoQuery pts

/-- `find_street_parking_near_delivery`: `None` when OSRM is disabled or
unavailable; otherwise the synthetic road-snapped candidate search, whose
trigonometric circle generation is abstracted into `env.dynamicParking`. -/
def find_street_parking_near_delivery (env : Env) (p : Point)
    (target_distance_km : ℚ) : Option Candidate :=
  if !env.osrmEnabled || !check_osrm_available env then none
  else env.dynamicParking p target_distance_km

end OsrmClient

namespace RouteCalculator

/-- `estimate_travel_time`: minutes at `avg_speed_kmh`, inflated by the 1.3
city-driving buffer; `0` for non-positive distance. -/
def estimate_travel_time (distance_km : ℚ) (avg_speed_kmh : ℚ) : ℚ :=
  if distance_km ≤ 0 then 0
  else distance_km / avg_speed_kmh * 60 * (13 / 10)

/-- `calculate_route_distance` (route_calculator.py): OSRM multi-point query
first; on any failure, summed pairwise `calculate_distance` (the haversine,
abstracted as `env.dist`) with a buffered time estimate.  Returns
`(total_distance_km, total_time_minutes)`. -/
def calculate_route_distance (env : Env) (route_points : List Point) : ℚ × ℚ :=
  if route_points.length < 2 then (0, 0)
  else
    let osrm : Option GeomResultData :=
      if env.osrmImport && OsrmClient.check_osrm_available env then
        OsrmClient.get_route_geometry env route_points
      else none
    match osrm with
    | some rd => (rd.distance / 1000, rd.duration / 60)
    | none =>
      let total := (route_points.zip (route_points.drop 1)).foldl
        (fun acc pq => acc + env.dist pq.1 pq.2) 0
      (total, estimate_travel_time total 50)

/-- One candidate inspection of `pick_best`: skip a candidate with a missing
coordinate (`is None` check), otherwise keep it when it strictly improves on
`best_distance` (infinity modelled as `none`) and lies within
`max_distance_km`; the kept candidate gets its `distance_km` filled in. -/
def pickStep (dist : Point → Point → ℚ) (delivery : Point)
    (max_distance_km : ℚ) (acc : Option Candidate × Option ℚ) (c : Candidate) :
    Option Candidate × Option ℚ :=
  match c.latitude, c.longitude with
  | some la, some lo =>
    let d := dist delivery (la, lo)
    match acc.2 with
    | none =>
      if d ≤ max_distance_km then (some { c with distance_km := some d }, some d)
      else acc
    | some bd =>
      if d < bd ∧ d ≤ max_distance_km then
        (some { c with distance_km := some d }, some d)
      else acc
  | _, _ => acc

/-- `pick_best` (closure inside `find_nearest_parking`): scan the candidates,
keeping the first strict improvement among those within `max_distance_km`. -/
def pick_best (dist : Point → Point → ℚ) (delivery : Point)
    (max_distance_km : ℚ) (candidates : List Candidate) : Option Candidate :=
  (candidates.foldl (pickStep dist delivery max_distance_km) (none, none)).1

/-- `dict.setdefault('source', v)`: set `source` only when the key is absent. -/
def setdefaultSource (c : Candidate) (v : String) : Candidate :=
  match c.source with
  | none => { c with source := some v }
  | some _ => c

/-- `find_nearest_parking`: tiers in source order — (1) cached static
candidates within the radius, (2) live Overpass candidates within the
radius, (3) dynamic OSRM street parking, (4) the static candidates again
through the same radius-filtered `pick_best`, else `None`.  An empty
`parking_locations` list is Python-falsy and skips tiers 1 and 4. -/
def find_nearest_parking (env : Env) (delivery : Point)
    (parking_locations : List Candidate) (max_distance_km : ℚ)
    (use_dynamic_parking : Bool) (target_parking_distance_km : ℚ) :
    Option Candidate :=
  let t1 : Option Candidate :=
    if parking_locations.isEmpty then none
    else pick_best env.dist delivery max_distance_km parking_locations
  match t1 with
  | some best_local => some (setdefaultSource best_local "db")
  | none =>
    let t2 : Option Candidate :=
      if env.osmImport then
        match env.osmFetch delivery with
        | none => none
        | some osm_candidates =>
          pick_best env.dist delivery max_distance_km osm_candidates
      else none
    match t2 with
    | some best_osm => some (setdefaultSource best_osm "osm")
    | none =>
      let t3 : Option Candidate :=
        if use_dynamic_parking then
          OsrmClient.find_street_parking_near_delivery env delivery
            target_parking_distance_km
        else none
      match t3 with
      | some dynamic_parking => some (setdefaultSource dynamic_parking "osrm")
      | none =>
        let t4 : Option Candidate :=
          if parking_locations.isEmpty then none
          else pick_best env.dist delivery max_distance_km parking_locations
        match t4 with
        | some best_static => some (setdefaultSource best_static "static")
        | none => none

/-- A waypoint dict: `type` key (named `wtype` here), coordinates, the
parking-only `distance_to_delivery_km`, and the `estimated_arrival` stamp
added by `calculate_complete_route`.  The `metadata` payload, which no
embedded code path reads, is omitted. -/
structure Waypoint where
  wtype : String
  lat : Option ℚ
  lon : Option ℚ
  distance_to_delivery_km : Option ℚ
  estimated_arrival : Option ℚ
deriving DecidableEq

/-- Result of `build_route_with_parking`. -/
structure RouteResult where
  waypoints : List Waypoint
  total_distance_km : ℚ
  total_time_minutes : ℚ
  geometry : Option (List Point)

/-- The per-order body of the loop in `build_route_with_parking`: skip
orders whose extracted coordinates are falsy, else append the resolved
parking waypoint (when found) followed by the delivery waypoint. -/
def orderWaypoints (env : Env) (parking_locations : List Candidate)
    (max_parking_distance_km : ℚ) (order : Order) : List Waypoint :=
  let dlat := orderLat order
  let dlon := orderLon order
  if !pyTruthy dlat || !pyTruthy dlon then []
  else
    let p : Point := (dlat.getD 0, dlon.getD 0)
    match find_nearest_parking env p parking_locations max_parking_distance_km
        true (1 / 2) with
    | some parking =>
      [⟨"parking", parking.latitude, parking.longitude,
          some (parking.distance_km.getD 0), none⟩,
        ⟨"delivery", dlat, dlon, none, none⟩]
    | none => [⟨"delivery", dlat, dlon, none, none⟩]

/-- `build_route_with_parking`: depot waypoint, then parking/delivery pairs
per order, then the depot again; totals from `calculate_route_distance`;
geometry kept only when OSRM is up and returns a truthy (non-empty) line. -/
def build_route_with_parking (env : Env) (depot : Point) (orders : List Order)
    (parking_locations : List Candidate) (max_parking_distance_km : ℚ) :
    RouteResult :=
  let depotWp : Waypoint := ⟨"depot", some depot.1, some depot.2, none, none⟩
  let middle : List Waypoint :=
    orders.flatMap (orderWaypoints env parking_locations max_parking_distance_km)
  let waypoints := depotWp :: middle ++ [depotWp]
  let route_points : List Point :=
    waypoints.map fun w => (w.lat.getD 0, w.lon.getD 0)
  let totals := calculate_route_distance env route_points
  let route_geometry : Option (List Point) :=
    if env.osrmImport && OsrmClient.check_osrm_available env then
      match OsrmClient.get_route_geometry env route_points with
      | some rd =>
        match rd.geometry with
        | some g => if g.isEmpty then none else some g
        | none => none
      | none => none
    else none
  ⟨waypoints, totals.1, totals.2, route_geometry⟩

/-- Python list indexing `l[i]` with negative-index wrapping; `none` models
a raised `IndexError`. -/
def pyIndex {α : Type} (l : List α) (i : Int) : Option α :=
  if 0 ≤ i then l.get? i.toNat
  else if (-i).toNat ≤ l.length then l.get? (l.length - (-i).toNat)
  else none

/-- Result of `calculate_complete_route`. -/
structure CompleteRouteResult where
  waypoints : List Waypoint
  total_distance_km : ℚ
  total_time_minutes : ℚ
  geometry : Option (List Point)
  estimated_arrival_times : List (Option ℚ)
  optimized_order_sequence : List Int
deriving DecidableEq

/-- The order-normalization pass of `calculate_complete_route`: keep the
orders whose extracted coordinates are truthy, re-keyed as the
`{"lat": lat, "lon": lon, **order}` merge does (an existing `lat`/`lon` key
of the order wins over the freshly extracted value). -/
def normalizedOrders (orders : List Order) : List Order :=
  orders.filterMap fun o =>
    let lat := orderLat o
    let lon := orderLon o
    if pyTruthy lat && pyTruthy lon then
      some { o with lat := if o.lat.isSome then o.lat else lat,
                    lon := if o.lon.isSome then o.lon else lon }
    else none

/-- `[normalized_orders[i] for i in optimized_order_indices]` when indices
are supplied (a raised `IndexError` as `Except.error`), else the normalized
orders as-is. -/
def reorderOrders (normalized : List Order) :
    Option (List Int) → Except String (List Order)
  | none => Except.ok normalized
  | some idxs => idxs.mapM fun i =>
      match pyIndex normalized i with
      | some o => Except.ok o
      | none => Except.error "list index out of range"

/-- Travel time to the next waypoint in the arrival-time loop of
`calculate_complete_route`: the OSRM pairwise minutes when obtainable, else
the haversine estimate at 50 km/h. -/
def segmentTravelTime (env : Env) (p1 p2 : Point) : ℚ :=
  let osrmTime : Option ℚ :=
    if env.osrmImport && OsrmClient.check_osrm_available env then
      (OsrmClient.get_route_distance_and_time env p1 p2).2
    else none
  match osrmTime with
  | some tm => tm
  | none => estimate_travel_time (env.dist p1 p2) 50

/-- `calculate_complete_route`: validate the depot, keep the orders with
truthy coordinates (re-keying them as the `{"lat": .., "lon": .., **order}`
merge does), reorder them by `optimized_order_indices` when supplied
(Python indexing, `IndexError` as `Except.error`), build the route, and
stamp estimated arrivals when a start time is given (time is modelled in
minutes from an arbitrary epoch). -/
def calculate_complete_route (env : Env) (depot : Order) (orders : List Order)
    (parking_locations : List Candidate)
    (optimized_order_indices : Option (List Int)) (start_time : Option ℚ) :
    Except String CompleteRouteResult :=
  let dlat := orderLat depot
  let dlon := orderLon depot
  if !pyTruthy dlat || !pyTruthy dlon then
    Except.error "Depot must have valid latitude and longitude"
  else
    let normalized_orders := normalizedOrders orders
    if normalized_orders.isEmpty then
      Except.error "No orders with valid coordinates"
    else
      match reorderOrders normalized_orders optimized_order_indices with
      | Except.error e => Except.error e
      | Except.ok ordered_orders =>
        let route_result :=
          build_route_with_parking env (dlat.getD 0, dlon.getD 0)
            ordered_orders parking_locations 2
        let waypoints := route_result.waypoints
        let arrivals : List (Option ℚ) :=
          match start_time with
          | none => waypoints.map fun _ => none
          | some t0 =>
            let r := (waypoints.zip (waypoints.drop 1)).foldl
              (fun (acc : List (Option ℚ) × ℚ) pq =>
                let travel := segmentTravelTime env
                  (pq.1.lat.getD 0, pq.1.lon.getD 0)
                  (pq.2.lat.getD 0, pq.2.lon.getD 0)
                (acc.1 ++ [some acc.2], acc.2 + travel))
              ([], t0)
            r.1 ++ [some r.2]
        let waypoints2 := waypoints.zipWith
          (fun w t => { w with estimated_arrival := t }) arrivals
        Except.ok
          ⟨waypoints2, route_result.total_distance_km,
            route_result.total_time_minutes, route_result.geometry, arrivals,
            match optimized_order_indices with
            | some idxs => idxs
            | none => (List.range normalized_orders.length).map Int.ofNat⟩

end RouteCalculator

namespace RouteClustering

/-- One step of the valid-coordinate extraction: append the coordinates and
the index when the order's extracted latitude and longitude are both truthy. -/
def extractStep (orders : List Order) (acc : List Point × List Nat) (i : Nat) :
    List Point × List Nat :=
  let o := orders.getD i ⟨none, none, none, none⟩
  let lat := orderLat o
  let lon := orderLon o
  if pyTruthy lat && pyTruthy lon then
    (acc.1 ++ [((lat.getD 0, lon.getD 0) : Point)], acc.2 ++ [i])
  else acc

/-- The valid-coordinate extraction shared by both clustering strategies:
`(coords, valid_orders)` for the orders whose extracted latitude and
longitude are both truthy, in input order. -/
def extractValid (orders : List Order) : List Point × List Nat :=
  (List.range orders.length).foldl (extractStep orders) ([], [])

/-- The distance matrix used by `cluster_orders_dbscan`, as a total lookup:
the OSRM table (meters, divided by 1000) when the import flag, the probe and
a truthy (non-empty) response all hold, else `calculate_distance_matrix`
over the haversine abstraction (zero diagonal). -/
def dbscanMatrix (env : Env) (coords : List Point) : Nat → Nat → ℚ :=
  let osrm : Option (List (List ℚ)) :=
    if env.osrmImport && OsrmClient.check_osrm_available env then
      match OsrmClient.get_table env coords with
      | some m => if m.isEmpty then none else some m
      | none => none
    else none
  match osrm with
  | some m => fun i j => (m.getD i []).getD j 0 / 1000
  | none => fun i j =>
      if i = j then 0
      else env.dist (coords.getD i (0, 0)) (coords.getD j (0, 0))

/-- `get_neighbors` (closure in `cluster_orders_dbscan`): point indices
other than `p` within `max_distance_km`, ascending. -/
def get_neighbors (M : Nat → Nat → ℚ) (n : Nat) (max_distance_km : ℚ)
    (p : Nat) : List Nat :=
  (List.range n).filter fun j => decide (j ≠ p ∧ M p j ≤ max_distance_km)

/-- The `while i < len(neighbors):` loop of `expand_cluster`, with the
growing `neighbors` list, the `visited` array and the cluster under
construction passed explicitly.  The duplicate guard of the source checks
membership in the *previously finished* clusters only.  `fuel` bounds the
iteration count and is instantiated generously by the caller. -/
def expandLoop (M : Nat → Nat → ℚ) (n : Nat) (max_distance_km : ℚ)
    (min_orders_per_cluster : Nat) (valid_orders : List Nat)
    (clusters : List (List Nat)) :
    Nat → List Nat → Nat → List Bool → List Nat → List Bool × List Nat
  | 0, _, _, visited, cluster => (visited, cluster)
  | fuel + 1, neighbors, i, visited, cluster =>
    if i < neighbors.length then
      let neighbor_idx := neighbors.getD i 0
      let expanded :=
        if !visited.getD neighbor_idx false then
          let visited2 := visited.set neighbor_idx true
          let neighbor_neighbors := get_neighbors M n max_distance_km neighbor_idx
          if min_orders_per_cluster - 1 ≤ neighbor_neighbors.length then
            (visited2, neighbors ++ neighbor_neighbors)
          else (visited2, neighbors)
        else (visited, neighbors)
      let cluster2 :=
        if (clusters.flatten.filter fun p =>
            decide (p < valid_orders.length)).contains neighbor_idx then
          cluster
        else cluster ++ [valid_orders.getD neighbor_idx 0]
      expandLoop M n max_distance_km min_orders_per_cluster valid_orders clusters
        fuel expanded.2 (i + 1) expanded.1 cluster2
    else (visited, cluster)

/-- `expand_cluster`: seed the cluster with the core point, mark it visited,
then run the neighbor-expansion loop. -/
def expand_cluster (M : Nat → Nat → ℚ) (n : Nat) (max_distance_km : ℚ)
    (min_orders_per_cluster : Nat) (valid_orders : List Nat)
    (clusters : List (List Nat)) (point_idx : Nat) (neighbors : List Nat)
    (visited : List Bool) : List Bool × List Nat :=
  expandLoop M n max_distance_km min_orders_per_cluster valid_orders clusters
    (n * n + n + 1) neighbors 0 (visited.set point_idx true)
    [valid_orders.getD point_idx 0]

/-- One core-point inspection of the scan loop in `cluster_orders_dbscan`. -/
def scanStep (M : Nat → Nat → ℚ) (n : Nat) (max_distance_km : ℚ)
    (min_orders_per_cluster : Nat) (valid_orders : List Nat)
    (acc : List Bool × List (List Nat) × List Nat) (i : Nat) :
    List Bool × List (List Nat) × List Nat :=
  let (visited, clusters, noise) := acc
  if visited.getD i false then acc
  else
    let neighbors := get_neighbors M n max_distance_km i
    if neighbors.length < min_orders_per_cluster - 1 then
      (visited, clusters, noise ++ [valid_orders.getD i 0])
    else
      let e := expand_cluster M n max_distance_km min_orders_per_cluster
        valid_orders clusters i neighbors visited
      if min_orders_per_cluster ≤ e.2.length then
        (e.1, clusters ++ [e.2], noise)
      else (e.1, clusters, noise ++ e.2)

/-- The core-point scan of `cluster_orders_dbscan`: for each unvisited point
either file it as noise (too few neighbors) or expand a cluster from it,
keeping the cluster when it reaches the minimum size and folding it into
noise otherwise.  Returns `(clusters, noise)` of order indices. -/
def dbscanScan (M : Nat → Nat → ℚ) (n : Nat) (max_distance_km : ℚ)
    (min_orders_per_cluster : Nat) (valid_orders : List Nat) :
    List (List Nat) × List Nat :=
  let r := (List.range n).foldl
    (scanStep M n max_distance_km min_orders_per_cluster valid_orders)
    (List.replicate n false, [], [])
  (r.2.1, r.2.2)

/-- One member visit of the average-distance accumulation. -/
def avgStep (dist : Point → Point → ℚ) (orders : List Order) (nlat nlon : ℚ)
    (acc : ℚ × Nat) (order_idx : Nat) : ℚ × Nat :=
  let o := orders.getD order_idx ⟨none, none, none, none⟩
  let olat := orderLat o
  let olon := orderLon o
  if pyTruthy olat && pyTruthy olon then
    (acc.1 + dist (nlat, nlon) (olat.getD 0, olon.getD 0), acc.2 + 1)
  else acc

/-- Average distance from point `(nlat, nlon)` to the truthy-coordinate
members of `cluster`, with the member count (the `(total, count)` pair
before the `count > 0` division guard). -/
def clusterAvgAccum (dist : Point → Point → ℚ) (orders : List Order)
    (nlat nlon : ℚ) (cluster : List Nat) : ℚ × Nat :=
  cluster.foldl (avgStep dist orders nlat nlon) (0, 0)

/-- The nearest-cluster scan for one noise point (`min_dist` starts at
infinity, strict improvement, cluster 0 is the default). -/
def nearestClusterSel (dist : Point → Point → ℚ) (orders : List Order)
    (nlat nlon : ℚ) (clusters : List (List Nat)) : Option ℚ × Nat :=
  (List.range clusters.length).foldl
    (fun (acc : Option ℚ × Nat) cluster_idx =>
      let a := clusterAvgAccum dist orders nlat nlon
        (clusters.getD cluster_idx [])
      if 0 < a.2 then
        let avg := a.1 / (a.2 : ℚ)
        match acc.1 with
        | none => (some avg, cluster_idx)
        | some m => if avg < m then (some avg, cluster_idx) else acc
      else acc)
    (none, 0)

/-- The treatment of one noise point in `cluster_orders_dbscan`. -/
def noiseStep (dist : Point → Point → ℚ) (orders : List Order)
    (clusters : List (List Nat)) (noise_idx : Nat) : List (List Nat) :=
  if clusters.isEmpty then clusters ++ [[noise_idx]]
  else
    let o := orders.getD noise_idx ⟨none, none, none, none⟩
    let nlat := orderLat o
    let nlon := orderLon o
    if !pyTruthy nlat || !pyTruthy nlon then clusters
    else
      let sel := nearestClusterSel dist orders (nlat.getD 0) (nlon.getD 0)
        clusters
      clusters.set sel.2 (clusters.getD sel.2 [] ++ [noise_idx])

/-- The noise-assignment loop of `cluster_orders_dbscan`: a noise point
seeds a new singleton cluster when none exists yet, otherwise it is appended
to the cluster of smallest average distance (`min_dist` starts at infinity,
the first cluster wins ties, index 0 is the default when every average is
unavailable). -/
def assignNoise (dist : Point → Point → ℚ) (orders : List Order)
    (clusters : List (List Nat)) (noise : List Nat) : List (List Nat) :=
  noise.foldl (noiseStep dist orders) clusters

/-- `cluster_orders_dbscan`: valid-coordinate extraction, distance matrix,
core-point scan, then noise assignment. -/
def cluster_orders_dbscan (env : Env) (orders : List Order)
    (max_distance_km : ℚ) (min_orders_per_cluster : Nat) : List (List Nat) :=
  if orders.isEmpty then []
  else
    let v := extractValid orders
    if v.1.isEmpty then []
    else
      let M := dbscanMatrix env v.1
      let s := dbscanScan M v.1.length max_distance_km min_orders_per_cluster v.2
      assignNoise env.dist orders s.1 s.2

end RouteClustering

namespace RouteClustering

/-- One assignment pass of `cluster_orders_kmeans`: each coordinate joins
the cluster of its nearest centroid (`min_dist` starts at infinity, strict
improvement, centroid 0 is the default). -/
def kmeansAssign (dist : Point → Point → ℚ) (coords : List Point)
    (valid_indices : List Nat) (centroids : List Point) : List (List Nat) :=
  (List.range coords.length).foldl
    (fun new_clusters idx =>
      let p := coords.getD idx (0, 0)
      let sel := (List.range centroids.length).foldl
        (fun (acc : Option ℚ × Nat) c_idx =>
          let d := dist p (centroids.getD c_idx (0, 0))
          match acc.1 with
          | none => (some d, c_idx)
          | some m => if d < m then (some d, c_idx) else acc)
        (none, 0)
      new_clusters.set sel.2
        (new_clusters.getD sel.2 [] ++ [valid_indices.getD idx 0]))
    (List.replicate centroids.length [])

/-- The centroid-update pass of `cluster_orders_kmeans`: recompute every
non-empty cluster's centroid as the mean of its members' coordinates and
record whether any centroid moved by more than the 10 m threshold
(`converged` flag). -/
def kmeansUpdate (dist : Point → Point → ℚ) (coords : List Point)
    (valid_indices : List Nat) (centroids : List Point)
    (new_clusters : List (List Nat)) : List Point × Bool :=
  (List.range centroids.length).foldl
    (fun (acc : List Point × Bool) c_idx =>
      let cluster := new_clusters.getD c_idx []
      if cluster.isEmpty then acc
      else
        let avg_lat := (cluster.foldl
          (fun s idx => s + (coords.getD (valid_indices.indexOf idx) (0, 0)).1)
          0) / (cluster.length : ℚ)
        let avg_lon := (cluster.foldl
          (fun s idx => s + (coords.getD (valid_indices.indexOf idx) (0, 0)).2)
          0) / (cluster.length : ℚ)
        let old_centroid := acc.1.getD c_idx (0, 0)
        let new_centroid : Point := (avg_lat, avg_lon)
        let conv := if dist old_centroid new_centroid > 1 / 100 then false
          else acc.2
        (acc.1.set c_idx new_centroid, conv))
    (centroids, true)

/-- The `for iteration in range(max_iterations)` loop of
`cluster_orders_kmeans`: assign, update centroids, stop early on
convergence, else iterate on the new centroids. -/
def kmeansLoop (dist : Point → Point → ℚ) (coords : List Point)
    (valid_indices : List Nat) :
    Nat → List Point → List (List Nat) → List (List Nat)
  | 0, _, clusters => clusters
  | fuel + 1, centroids, _ =>
    let new_clusters := kmeansAssign dist coords valid_indices centroids
    let u := kmeansUpdate dist coords valid_indices centroids new_clusters
    if u.2 then new_clusters
    else kmeansLoop dist coords valid_indices fuel u.1 new_clusters

/-- `cluster_orders_kmeans`: guards, valid-coordinate extraction, the
fewer-points-than-clusters early return of one singleton per point, else the
centroid iteration on a `random.sample` start (randomness abstracted into
`env.sample`), dropping empty clusters at the end. -/
def cluster_orders_kmeans (env : Env) (orders : List Order)
    (num_clusters : Nat) (max_iterations : Nat) : List (List Nat) :=
  if orders.isEmpty || num_clusters = 0 then []
  else
    let v := extractValid orders
    if v.1.length < num_clusters then v.2.map fun idx => [idx]
    else
      let centroids := env.sample v.1 num_clusters
      let clusters := kmeansLoop env.dist v.1 v.2 max_iterations centroids
        (List.replicate num_clusters [])
      clusters.filter fun c => !c.isEmpty

/-- `cluster[i:i+chunk_size]` slices for `i in range(0, len(cluster),
chunk_size)`, skipping falsy (empty) chunks; empty for a zero step, where
the Python `range` would raise. -/
def chunksOf (chunk_size : Nat) (cluster : List Nat) : List (List Nat) :=
  if chunk_size = 0 then []
  else
    let rec go : Nat → List Nat → List (List Nat)
      | 0, _ => []
      | _, [] => []
      | fuel + 1, l => l.take chunk_size :: go fuel (l.drop chunk_size)
    go cluster.length cluster

/-- The handling of one cluster in the large-cluster split. -/
def splitStep (max_orders_per_route : Nat) (final_clusters : List (List Nat))
    (cluster : List Nat) : List (List Nat) :=
  if cluster.length ≤ max_orders_per_route then
    final_clusters ++ [cluster]
  else
    let num_splits := (cluster.length + max_orders_per_route - 1) /
      max_orders_per_route
    let chunk_size := cluster.length / num_splits
    final_clusters ++ chunksOf chunk_size cluster

/-- The large-cluster post-processing of `cluster_orders`: clusters within
`max_orders_per_route` pass through; larger ones are cut into
`ceil(len / max)` contiguous chunks of `len // ceil(len / max)` elements. -/
def splitLargeClusters (max_orders_per_route : Nat)
    (clusters : List (List Nat)) : List (List Nat) :=
  clusters.foldl (splitStep max_orders_per_route) []

/-- `cluster_orders`: strategy dispatch (`kmeans` only when the method
string matches and `num_clusters` is truthy, else the DBSCAN-like default),
then the large-cluster split. -/
def cluster_orders (env : Env) (orders : List Order) (method : String)
    (max_distance_km : ℚ) (min_orders_per_cluster : Nat)
    (max_orders_per_route : Nat) (num_clusters : Option Nat) :
    List (List Nat) :=
  if orders.isEmpty then []
  else
    let clusters :=
      if method == "kmeans" && num_clusters.getD 0 != 0 then
        cluster_orders_kmeans env orders (num_clusters.getD 0) 100
      else
        cluster_orders_dbscan env orders max_distance_km min_orders_per_cluster
    splitLargeClusters max_orders_per_route clusters

end RouteClustering

namespace DriverAssigner

/-- `ROUTE_COLORS`: the fixed route-color palette. -/
def ROUTE_COLORS : List String :=
  ["#9b59b6", "#e91e63", "#00bcd4", "#4caf50", "#ff9800", "#2196f3",
   "#f44336", "#009688", "#ffc107", "#795548", "#607d8b", "#9c27b0",
   "#ff5722", "#00acc1", "#8bc34a"]

/-- `driver_name.split()`: split on space runs, dropping empty pieces
(whitespace other than the space character is not modelled). -/
def pySplitWords (s : String) : List String :=
  (s.splitOn " ").filter fun w => w ≠ ""

/-- `generate_route_name`: two-word initials, a single word's first two
letters, or the positional `R<n>` fallback, uppercased. -/
def generate_route_name (driver_name : String) (route_index : Nat) : String :=
  if driver_name = "" then "R" ++ toString (route_index + 1)
  else
    let words := pySplitWords driver_name
    if 2 ≤ words.length then
      ((words.getD 0 "").take 1 ++ (words.getD 1 "").take 1).toUpper
    else if words.length = 1 then ((words.getD 0 "").take 2).toUpper
    else "R" ++ toString (route_index + 1)

/-- A driver dict: identifier, display name, and the `available` flag
(`d.get('available', True)`). -/
structure Driver where
  id : Nat
  name : String
  available : Bool
deriving DecidableEq

/-- One route assignment as produced by `assign_drivers_to_clusters`. -/
structure Assignment where
  driver_id : Nat
  driver_name : String
  order_ids : List Nat
  order_count : Nat
  route_name : String
  color : String
  route_index : Nat
deriving DecidableEq

/-- The driver selection of the `balanced` branch: `min(workloads.values())`,
then the first dict key (insertion order = the available-driver list order)
carrying that minimal workload.  Assumes distinct driver ids, under which
the insertion-ordered association list models the Python dict exactly. -/
def pickDriver (driver_workloads : List (Nat × Nat)) : Option Nat :=
  match (driver_workloads.map Prod.snd).min? with
  | none => none
  | some min_workload =>
    ((driver_workloads.filter fun p => p.2 == min_workload).head?).map Prod.fst

/-- `driver_workloads[assigned_driver_id] += cluster_size` on the
insertion-ordered association list. -/
def updateWorkload (wl : List (Nat × Nat)) (d : Nat) (size : Nat) :
    List (Nat × Nat) :=
  wl.map fun p => if p.1 = d then (p.1, p.2 + size) else p

/-- The body of the `balanced` loop for one `(cluster_idx, cluster_size)`
pair: pick the least-loaded driver, bump their workload, then emit the
assignment (the `if not driver: continue` lookup guard included). -/
def balancedStep (available_drivers : List Driver)
    (clusters : List (List Nat)) (acc : List (Nat × Nat) × List Assignment)
    (cs : Nat × Nat) : List (Nat × Nat) × List Assignment :=
  match pickDriver acc.1 with
  | none => acc
  | some assigned_driver_id =>
    let wl2 := updateWorkload acc.1 assigned_driver_id cs.2
    match available_drivers.find? fun d => d.id == assigned_driver_id with
    | none => (wl2, acc.2)
    | some driver =>
      let route_index := acc.2.length
      let route_name := generate_route_name driver.name route_index
      let color := ROUTE_COLORS.getD (route_index % ROUTE_COLORS.length) ""
      (wl2, acc.2 ++
        [⟨assigned_driver_id, driver.name, clusters.getD cs.1 [], cs.2,
          route_name, color, route_index⟩])

/-- Stable descending sort by cluster size of the enumerated
`(cluster_idx, cluster_size)` list (`sort(key=..., reverse=True)`). -/
def sortClustersDesc (l : List (Nat × Nat)) : List (Nat × Nat) :=
  l.mergeSort fun a b => decide (b.2 ≤ a.2)

/-- `assign_drivers_to_clusters`: availability filter with
all-drivers fallback, then either the `balanced` workload strategy (clusters
largest-first, least-loaded driver first, final stable sort of the
assignments by driver id) or the sequential round-robin.  The unused
`orders` parameter of the source is dropped. -/
def assign_drivers_to_clusters (clusters : List (List Nat))
    (drivers : List Driver) (assignment_strategy : String) : List Assignment :=
  if clusters.isEmpty || drivers.isEmpty then []
  else
    let available0 := drivers.filter fun d => d.available
    let available_drivers := if available0.isEmpty then drivers else available0
    let cluster_sizes := clusters.map List.length
    if assignment_strategy == "balanced" then
      let cluster_with_size := sortClustersDesc cluster_sizes.enum
      let init : List (Nat × Nat) := available_drivers.map fun d => (d.id, 0)
      let r := cluster_with_size.foldl (balancedStep available_drivers clusters)
        (init, [])
      r.2.mergeSort fun a b => decide (a.driver_id ≤ b.driver_id)
    else
      ((clusters.enum).foldl
        (fun (acc : Nat × List Assignment) ic =>
          let driver := available_drivers.getD
            (acc.1 % available_drivers.length) ⟨0, "", true⟩
          let route_index := acc.2.length
          let route_name := generate_route_name driver.name route_index
          let color := ROUTE_COLORS.getD (route_index % ROUTE_COLORS.length) ""
          (acc.1 + 1, acc.2 ++
            [⟨driver.id, driver.name, ic.2, ic.2.length, route_name, color,
              route_index⟩]))
        (0, [])).2

end DriverAssigner

/-! Concrete demonstration inputs used by the witness and counterexample
theorems below. -/

/-- Demonstration distance matrix: zero diagonal, one everywhere else. -/
def demoMatrix : Nat → Nat → ℚ := fun i j => if i = j then 0 else 1

/-- An environment with the road-routing service unreachable (the
availability probe fails), the Overpass query raising, no synthetic
candidates, and unit pairwise haversine distances. -/
def offlineEnv : Env where
  osrmImport := true
  osmImport := true
  osrmEnabled := true
  osrmUp := false
  routeQuery := fun _ _ => none
  geoQuery := fun _ => none
  tableQuery := fun _ => none
  osmFetch := fun _ => none
  dynamicParking := fun _ _ => none
  sample := fun l k => l.take k
  dist := fun p q => if p = q then 0 else 1

/-- Like `offlineEnv` but with every pair of distinct points 3 km apart. -/
def parkingEnv : Env :=
  { offlineEnv with dist := fun p q => if p = q then 0 else 3 }

/-- A static parking candidate away from the demonstration delivery point. -/
def farCandidate : Candidate := ⟨some 48, some 92, none, none⟩

/-- Two geolocated orders 1 km apart under `offlineEnv.dist`. -/
def closeOrders2 : List Order :=
  [⟨some 1, some 1, none, none⟩, ⟨some 2, some 1, none, none⟩]

/-- Four geolocated orders, pairwise 1 km apart under `offlineEnv.dist`. -/
def closeOrders4 : List Order :=
  [⟨some 1, some 1, none, none⟩, ⟨some 2, some 1, none, none⟩,
   ⟨some 3, some 1, none, none⟩, ⟨some 4, some 1, none, none⟩]

/-- A geolocated depot dict. -/
def demoDepot : Order := ⟨some 48, some 9, none, none⟩

/-- A geolocated order dict. -/
def demoOrder : Order := ⟨some 49, some 10, none, none⟩

/-- A driver with identifier 2, listed first. -/
def driverTwo : DriverAssigner.Driver := ⟨2, "Alice Smith", true⟩

/-- A driver with identifier 1, listed second. -/
def driverOne : DriverAssigner.Driver := ⟨1, "Bob Jones", true⟩

-- Decidable equality of `Except` results, for concrete evaluations.
deriving instance DecidableEq for Except

/-! Theorems. -/

namespace RouteOptimizer

theorem findImprovement_eq_none {D : Nat → Nat → ℚ} {route : List Nat}
    (h : LocallyOptimal D route) : findImprovement D route = none := by
  unfold findImprovement
  rw [List.findSome?_eq_none_iff]
  intro p hp
  simp only [List.mem_flatten, List.mem_map, List.mem_range] at hp
  obtain ⟨l, ⟨i, hi, rfl⟩, hpl⟩ := hp
  obtain ⟨j, hj, rfl⟩ := List.mem_map.mp hpl
  have hj' := List.mem_range'_1.mp hj
  have hle := h j (by omega) i (by omega) (by omega)
  simp only
  exact if_neg (not_lt.mpr hle)

/-- C4: the 2-opt refinement loop of `optimize_route_2opt` is a fixpoint on
any tour that is already locally optimal (no reversal in the scan range
strictly reduces the total distance); in particular re-running it leaves the
total tour distance unchanged, for every depot matrix, fuel and route. -/
theorem two_opt_locally_optimal_fixed (D : Nat → Nat → ℚ) (route : List Nat)
    (fuel : Nat) (h : LocallyOptimal D route) :
    twoOptLoop D fuel route = route ∧
    calculate_route_distance D (twoOptLoop D fuel route) =
      calculate_route_distance D route := by
  have hfix : twoOptLoop D fuel route = route := by
    cases fuel with
    | zero => rfl
    | succ n =>
      unfold twoOptLoop
      rw [findImprovement_eq_none h]
  exact ⟨hfix, by rw [hfix]⟩

theorem two_opt_locally_optimal_fixed_witness :
    LocallyOptimal demoMatrix [0, 1, 2] ∧
    twoOptLoop demoMatrix 100 [0, 1, 2] = [0, 1, 2] := by
  have h : LocallyOptimal demoMatrix [0, 1, 2] := by
    unfold LocallyOptimal
    intro j hj i hij hij2
    have hj3 : j < 3 := by simpa using hj
    have hj2 : j = 2 := by omega
    have hi0 : i = 0 := by omega
    subst hj2
    subst hi0
    norm_num [two_opt_swap, calculate_route_distance, demoMatrix, List.foldl]
  exact ⟨h, (two_opt_locally_optimal_fixed demoMatrix [0, 1, 2] 100 h).1⟩

/-- C10: the tour-distance helper used by 2-opt returns exactly 0 for every
route of fewer than two stops, whatever the matrix says about the
depot-to-stop legs. -/
theorem route_distance_short_route_zero (D : Nat → Nat → ℚ) (route : List Nat)
    (h : route.length < 2) : calculate_route_distance D route = 0 := by
  unfold calculate_route_distance
  rw [if_pos h]

theorem route_distance_short_route_zero_witness :
    ([0] : List Nat).length < 2 ∧ 0 < demoMatrix 0 1 + demoMatrix 1 0 ∧
      calculate_route_distance demoMatrix [0] = 0 :=
  ⟨by decide, by norm_num [demoMatrix],
    route_distance_short_route_zero demoMatrix [0] (by decide)⟩

theorem foldl_selectStep_some (D : Nat → Nat → ℚ) (c : Nat) :
    ∀ (t : List Nat) (b : Nat),
      t.foldl (selectStep D c) (some (b, D c (b + 1))) =
        some (t.foldl (minStep D c) b, D c (t.foldl (minStep D c) b + 1)) := by
  intro t
  induction t with
  | nil => intro b; rfl
  | cons o t ih =>
    intro b
    rw [List.foldl_cons, List.foldl_cons]
    have e1 : selectStep D c (some (b, D c (b + 1))) o =
        if D c (o + 1) < D c (b + 1) then some (o, D c (o + 1))
        else some (b, D c (b + 1)) := rfl
    rw [e1]
    by_cases hlt : D c (o + 1) < D c (b + 1)
    · have h2 : minStep D c b o = o := if_pos hlt
      rw [if_pos hlt, h2]
      exact ih o
    · have h2 : minStep D c b o = b := if_neg hlt
      rw [if_neg hlt, h2]
      exact ih b

theorem foldl_lowStep_some (D : Nat → Nat → ℚ) (c : Nat) :
    ∀ (t : List Nat) (b : Nat),
      t.foldl (lowStep D c) (some b) = some (t.foldl (lexStep D c) b) := by
  intro t
  induction t with
  | nil => intro b; rfl
  | cons o t ih =>
    intro b
    rw [List.foldl_cons, List.foldl_cons]
    have e1 : lowStep D c (some b) o =
        if D c (o + 1) < D c (b + 1) ∨
            (D c (o + 1) = D c (b + 1) ∧ o < b) then some o
        else some b := rfl
    rw [e1]
    by_cases hc : D c (o + 1) < D c (b + 1) ∨
        (D c (o + 1) = D c (b + 1) ∧ o < b)
    · have h2 : lexStep D c b o = o := if_pos hc
      rw [if_pos hc, h2]
      exact ih o
    · have h2 : lexStep D c b o = b := if_neg hc
      rw [if_neg hc, h2]
      exact ih b

theorem foldl_min_eq_lex (D : Nat → Nat → ℚ) (c : Nat) :
    ∀ (t : List Nat) (b : Nat), (∀ x ∈ t, b < x) → t.Pairwise (· < ·) →
      t.foldl (minStep D c) b = t.foldl (lexStep D c) b := by
  intro t
  induction t with
  | nil => intro b _ _; rfl
  | cons o t ih =>
    intro b hb hp
    have hbo : b < o := hb o (List.mem_cons_self o t)
    rcases List.pairwise_cons.mp hp with ⟨ho, hp'⟩
    rw [List.foldl_cons, List.foldl_cons]
    by_cases hlt : D c (o + 1) < D c (b + 1)
    · have h1 : minStep D c b o = o := if_pos hlt
      have h2 : lexStep D c b o = o := if_pos (Or.inl hlt)
      rw [h1, h2]
      exact ih o ho hp'
    · have h1 : minStep D c b o = b := if_neg hlt
      have h2 : lexStep D c b o = b := by
        apply if_neg
        rintro (hc | ⟨-, hob⟩)
        · exact hlt hc
        · omega
      rw [h1, h2]
      exact ih b (fun x hx => hb x (List.mem_cons_of_mem o hx)) hp'

theorem selectNearest_eq_lowest (D : Nat → Nat → ℚ) (c : Nat)
    {u : List Nat} (hu : u.Pairwise (· < ·)) :
    selectNearest D c u = selectNearestLowest D c u := by
  cases u with
  | nil => rfl
  | cons o t =>
    unfold selectNearest selectNearestLowest
    rw [List.foldl_cons, List.foldl_cons]
    have e1 : selectStep D c none o = some (o, D c (o + 1)) := rfl
    have e2 : lowStep D c none o = some o := rfl
    rw [e1, e2, foldl_selectStep_some, foldl_lowStep_some]
    rcases List.pairwise_cons.mp hu with ⟨ho, hp⟩
    rw [foldl_min_eq_lex D c t o ho hp]
    rfl

theorem nnLoop_eq_spec (D : Nat → Nat → ℚ) :
    ∀ (fuel : Nat) (u : List Nat) (c : Nat) (acc : List Nat),
      u.Pairwise (· < ·) → nnLoop D fuel u c acc = nnSpecLoop D fuel u c acc := by
  intro fuel
  induction fuel with
  | zero => intros; rfl
  | succ n ih =>
    intro u c acc hu
    have hsel := selectNearest_eq_lowest D c hu
    simp only [nnLoop, nnSpecLoop, ← hsel]
    cases h : selectNearest D c u with
    | none => rfl
    | some o =>
      exact ih (u.erase o) (o + 1) (o :: acc)
        (List.Pairwise.sublist (List.erase_sublist o u) hu)

/-- C9: the route sequencer is a pure function of the depot matrix and the
order count, and its nearest-neighbour construction refines the
specification that always visits the unvisited stop of minimal matrix
distance with ties broken by the lowest original stop index; consequently
the 2-opt stage operates on exactly that deterministic start tour. -/
theorem sequencer_deterministic_lowest_index_tiebreak (D : Nat → Nat → ℚ)
    (n : Nat) :
    optimize_route_simple D n = nearestNeighborSpecRoute D n ∧
    optimize_route_2opt D n =
      twoOptLoop D 100 (nearestNeighborSpecRoute D n) := by
  have h := nnLoop_eq_spec D n (List.range n) 0 [] (List.pairwise_lt_range n)
  refine ⟨h, ?_⟩
  unfold optimize_route_2opt optimize_route_simple nearestNeighborSpecRoute
  rw [h]

end RouteOptimizer

namespace OsrmClient

/-- C3 (counterexample): with the road-routing service unavailable, the
pairwise query `get_route_distance_and_time` itself returns `(None, None)`
for two distinct geolocated points — no haversine estimate and no tag — so
the claim as stated about the pairwise query fails. -/
theorem pair_query_unavailable_counterexample :
    get_route_distance_and_time offlineEnv (48, 9) (49, 10) = (none, none) ∧
      ((48, 9) : Point) ≠ (49, 10) ∧ offlineEnv.osrmUp = false := by
  refine ⟨by decide, by decide, rfl⟩

end OsrmClient

namespace RouteCalculator

/-- C3 (amended): the haversine fallback lives one level up — when the
availability probe fails, `calculate_route_distance` on the two points
returns the summed haversine distance with the buffered time estimate, both
strictly positive whenever the pairwise distance is; no provenance tag is
attached anywhere. -/
theorem fallback_pairwise_estimate (env : Env) (a b : Point)
    (hup : env.osrmUp = false) (hpos : 0 < env.dist a b) :
    calculate_route_distance env [a, b] =
      (env.dist a b, estimate_travel_time (env.dist a b) 50) ∧
    0 < (calculate_route_distance env [a, b]).1 ∧
    0 < (calculate_route_distance env [a, b]).2 := by
  have hck : OsrmClient.check_osrm_available env = false := by
    unfold OsrmClient.check_osrm_available
    rw [hup, Bool.and_false]
  have heq : calculate_route_distance env [a, b] =
      (env.dist a b, estimate_travel_time (env.dist a b) 50) := by
    unfold calculate_route_distance
    rw [hck]
    norm_num
  have hest : 0 < estimate_travel_time (env.dist a b) 50 := by
    unfold estimate_travel_time
    rw [if_neg (not_le.mpr hpos)]
    exact mul_pos
      (mul_pos (div_pos hpos (by norm_num)) (by norm_num))
      (by norm_num)
  exact ⟨heq, by rw [heq]; exact hpos, by rw [heq]; exact hest⟩

theorem fallback_pairwise_estimate_witness :
    offlineEnv.osrmUp = false ∧ 0 < offlineEnv.dist (48, 9) (49, 10) ∧
    0 < (calculate_route_distance offlineEnv [(48, 9), (49, 10)]).1 ∧
    0 < (calculate_route_distance offlineEnv [(48, 9), (49, 10)]).2 := by
  have h := fallback_pairwise_estimate offlineEnv (48, 9) (49, 10) rfl (by decide)
  exact ⟨rfl, by decide, h.2.1, h.2.2⟩

/-- C1 (counterexample): scenario D on the code — a single static candidate
3 km away with a 2 km radius, the live Overpass query raising and the
synthetic road-snap tier yielding nothing: `find_nearest_parking` returns
`None`, not the too-far static candidate. -/
theorem scenarioD_counterexample :
    find_nearest_parking parkingEnv (48, 9) [farCandidate] 2 true (1 / 2) =
      none ∧
    parkingEnv.dist (48, 9) (48, 92) = 3 ∧
    parkingEnv.osmFetch (48, 9) = none ∧
    OsrmClient.find_street_parking_near_delivery parkingEnv (48, 9) (1 / 2) =
      none := by
  refine ⟨by decide, by decide, rfl, by decide⟩

theorem pick_best_none_of_far (dist : Point → Point → ℚ) (delivery : Point)
    (maxD : ℚ) (cands : List Candidate)
    (h : ∀ c ∈ cands, c.latitude.isSome = true → c.longitude.isSome = true →
      maxD < dist delivery (c.latitude.getD 0, c.longitude.getD 0)) :
    pick_best dist delivery maxD cands = none := by
  unfold pick_best
  suffices hs : cands.foldl (pickStep dist delivery maxD) (none, none) =
      (none, none) by rw [hs]
  induction cands with
  | nil => rfl
  | cons c t ih =>
    rw [List.foldl_cons]
    have hstep : pickStep dist delivery maxD (none, none) c = (none, none) := by
      unfold pickStep
      cases hla : c.latitude with
      | none => rfl
      | some la =>
        cases hlo : c.longitude with
        | none => rfl
        | some lo =>
          have hfar := h c (List.mem_cons_self c t) (by rw [hla]; rfl)
            (by rw [hlo]; rfl)
          rw [hla, hlo] at hfar
          simp only [Option.getD_some] at hfar
          simp only
          rw [if_neg (not_le.mpr hfar)]
    rw [hstep]
    exact ih fun c hc => h c (List.mem_cons_of_mem _ hc)

/-- C1 (amended): the final static tier reuses the same radius-filtered
`pick_best`, so when every static candidate with coordinates lies strictly
beyond the maximum radius, the live query yields nothing and the dynamic
tier fails, `find_nearest_parking` returns `None` — a too-far static
candidate is never returned as a last resort. -/
theorem find_nearest_parking_radius_cutoff (env : Env) (delivery : Point)
    (cands : List Candidate) (maxD target : ℚ)
    (hfar : ∀ c ∈ cands, c.latitude.isSome = true → c.longitude.isSome = true →
      maxD < env.dist delivery (c.latitude.getD 0, c.longitude.getD 0))
    (hosm : env.osmFetch delivery = none)
    (hdyn : OsrmClient.find_street_parking_near_delivery env delivery target =
      none) :
    find_nearest_parking env delivery cands maxD true target = none := by
  have hpb := pick_best_none_of_far env.dist delivery maxD cands hfar
  unfold find_nearest_parking
  have ht1 : (if cands.isEmpty then none
      else pick_best env.dist delivery maxD cands) = none := by
    split
    · rfl
    · exact hpb
  rw [ht1, hosm, hdyn]
  simp only [ite_self]

theorem find_nearest_parking_radius_cutoff_witness :
    (∀ c ∈ [farCandidate], c.latitude.isSome = true →
      c.longitude.isSome = true →
      2 < parkingEnv.dist (48, 9) (c.latitude.getD 0, c.longitude.getD 0)) ∧
    parkingEnv.osmFetch (48, 9) = none ∧
    find_nearest_parking parkingEnv (48, 9) [farCandidate] 2 true (1 / 2) =
      none :=
  ⟨by decide, rfl,
    find_nearest_parking_radius_cutoff parkingEnv (48, 9) [farCandidate] 2
      (1 / 2) (by decide) rfl (by decide)⟩

end RouteCalculator

namespace RouteCalculator

theorem orderWaypoints_delivery_count (env : Env) (pl : List Candidate)
    (maxP : ℚ) (o : Order) (hlat : pyTruthy (orderLat o) = true)
    (hlon : pyTruthy (orderLon o) = true) :
    (orderWaypoints env pl maxP o).countP (fun w => w.wtype == "delivery") =
      1 := by
  simp only [orderWaypoints]
  rw [hlat, hlon]
  simp only [Bool.not_true, Bool.or_self, Bool.false_eq_true, if_false]
  split
  · simp [List.countP_cons]
  · simp [List.countP_cons]

theorem flatMap_delivery_count (env : Env) (pl : List Candidate) (maxP : ℚ) :
    ∀ orders : List Order,
      (∀ o ∈ orders,
        pyTruthy (orderLat o) = true ∧ pyTruthy (orderLon o) = true) →
      (orders.flatMap (orderWaypoints env pl maxP)).countP
        (fun w => w.wtype == "delivery") = orders.length := by
  intro orders
  induction orders with
  | nil => intro _; rfl
  | cons o t ih =>
    intro h
    have ho := h o (List.mem_cons_self o t)
    rw [List.flatMap_cons, List.countP_append,
      orderWaypoints_delivery_count env pl maxP o ho.1 ho.2,
      ih fun o' ho' => h o' (List.mem_cons_of_mem _ ho')]
    simp [Nat.add_comm]

/-- C6: `build_route_with_parking` always emits the depot waypoint first and
last, and for geolocated (truthy-coordinate) input stops the number of
delivery waypoints equals the number of input stops. -/
theorem build_route_waypoints_shape (env : Env) (depot : Point)
    (orders : List Order) (pl : List Candidate) (maxP : ℚ)
    (_hne : orders ≠ [])
    (hall : ∀ o ∈ orders,
      pyTruthy (orderLat o) = true ∧ pyTruthy (orderLon o) = true) :
    ∃ d1 d2 : Waypoint,
      (build_route_with_parking env depot orders pl maxP).waypoints.head? =
        some d1 ∧ d1.wtype = "depot" ∧
      (build_route_with_parking env depot orders pl maxP).waypoints.getLast? =
        some d2 ∧ d2.wtype = "depot" ∧
      (build_route_with_parking env depot orders pl maxP).waypoints.countP
        (fun w => w.wtype == "delivery") = orders.length := by
  refine ⟨⟨"depot", some depot.1, some depot.2, none, none⟩,
    ⟨"depot", some depot.1, some depot.2, none, none⟩, ?_, rfl, ?_, rfl, ?_⟩
  · unfold build_route_with_parking
    simp only [List.cons_append, List.head?_cons]
  · unfold build_route_with_parking
    exact List.getLast?_concat _
  · unfold build_route_with_parking
    simp only [List.countP_append, List.countP_cons, List.countP_nil]
    rw [flatMap_delivery_count env pl maxP orders hall]
    simp

end RouteCalculator

namespace RouteCalculator

theorem build_route_waypoints_shape_witness :
    ([demoOrder] ≠ ([] : List Order)) ∧
    (∀ o ∈ [demoOrder],
      pyTruthy (orderLat o) = true ∧ pyTruthy (orderLon o) = true) ∧
    ∃ d1 d2 : Waypoint,
      (build_route_with_parking offlineEnv (48, 9) [demoOrder] [] 2).waypoints.head? =
        some d1 ∧ d1.wtype = "depot" ∧
      (build_route_with_parking offlineEnv (48, 9) [demoOrder] [] 2).waypoints.getLast? =
        some d2 ∧ d2.wtype = "depot" ∧
      (build_route_with_parking offlineEnv (48, 9) [demoOrder] [] 2).waypoints.countP
        (fun w => w.wtype == "delivery") = ([demoOrder] : List Order).length :=
  ⟨by decide, by decide,
    build_route_waypoints_shape offlineEnv (48, 9) [demoOrder] [] 2
      (by decide) (by decide)⟩

/-- C8 (counterexample): a geolocated depot and one geolocated order, but an
out-of-range `optimized_order_indices` entry: `calculate_complete_route`
raises `IndexError` although the input is feasible in the claim's sense. -/
theorem complete_route_raises_counterexample :
    calculate_complete_route offlineEnv demoDepot [demoOrder] [] (some [5])
        none = Except.error "list index out of range" ∧
    pyTruthy (orderLat demoDepot) = true ∧
    pyTruthy (orderLon demoDepot) = true ∧
    pyTruthy (orderLat demoOrder) = true ∧
    pyTruthy (orderLon demoOrder) = true := by
  refine ⟨by decide, by decide, by decide, by decide, by decide⟩

theorem mapM_index_ok (L : List Order) : ∀ l : List Int,
    (∀ i ∈ l, (pyIndex L i).isSome = true) →
    ∃ os, (l.mapM fun i =>
      match pyIndex L i with
      | some o => Except.ok o
      | none => Except.error "list index out of range") =
        (Except.ok os : Except String (List Order)) := by
  intro l
  induction l with
  | nil => intro _; exact ⟨[], rfl⟩
  | cons i t ih =>
    intro h
    have hi := h i (List.mem_cons_self i t)
    obtain ⟨o, ho⟩ := Option.isSome_iff_exists.mp hi
    obtain ⟨os, hos⟩ := ih fun j hj => h j (List.mem_cons_of_mem _ hj)
    refine ⟨o :: os, ?_⟩
    rw [List.mapM_cons, ho, hos]
    rfl

theorem reorderOrders_ok (L : List Order) (idxs : Option (List Int))
    (h : ∀ i ∈ idxs.getD [], (pyIndex L i).isSome = true) :
    ∃ os, reorderOrders L idxs = Except.ok os := by
  cases idxs with
  | none => exact ⟨L, rfl⟩
  | some l =>
    simp only [Option.getD_some] at h
    exact mapM_index_ok L l h

/-- C8 (amended): `calculate_complete_route` succeeds for every input with a
truthy-coordinate depot, at least one truthy-coordinate order, and (when
supplied) in-range optimized order indices, whatever the external services
do; it raises exactly on a falsy depot coordinate, on no valid order, or on
an out-of-range index. -/
theorem complete_route_ok (env : Env) (depot : Order) (orders : List Order)
    (pl : List Candidate) (idxs : Option (List Int)) (t0 : Option ℚ)
    (hdlat : pyTruthy (orderLat depot) = true)
    (hdlon : pyTruthy (orderLon depot) = true)
    (hord : ∃ o ∈ orders,
      pyTruthy (orderLat o) = true ∧ pyTruthy (orderLon o) = true)
    (hidx : ∀ i ∈ idxs.getD [],
      (pyIndex (normalizedOrders orders) i).isSome = true) :
    ∃ r, calculate_complete_route env depot orders pl idxs t0 =
      Except.ok r := by
  have hemp : (normalizedOrders orders).isEmpty = false := by
    rw [List.isEmpty_eq_false]
    intro hnil
    obtain ⟨o, ho, h1, h2⟩ := hord
    have hall := List.filterMap_eq_nil_iff.mp hnil o ho
    simp [h1, h2] at hall
  obtain ⟨os, hos⟩ := reorderOrders_ok (normalizedOrders orders) idxs hidx
  simp only [calculate_complete_route]
  rw [hdlat, hdlon]
  simp only [Bool.not_true, Bool.or_self, Bool.false_eq_true, if_false]
  rw [hemp]
  simp only [Bool.false_eq_true, if_false]
  rw [hos]
  exact ⟨_, rfl⟩

end RouteCalculator

namespace RouteClustering

/-- C2: evaluating the embedded clusterer at the failing input — four
geolocated orders, pairwise 1 km apart, default DBSCAN parameters — returns
a single cluster in which order index 0 occurs four times and each other index at least twice: the
output is not a partition of the input index set. -/
theorem cluster_orders_duplicates_order_indices :
    cluster_orders offlineEnv closeOrders4 "dbscan" 10 3 40 none =
      [[0, 1, 2, 3, 0, 2, 3, 0, 1, 3, 0, 1, 2]] ∧
    (cluster_orders offlineEnv closeOrders4 "dbscan" 10 3 40
      none).flatten.count 0 = 4 ∧
    closeOrders4.length = 4 := by
  refine ⟨by decide, by decide, by decide⟩

theorem getD_replicate_false (n i : Nat) :
    (List.replicate n false).getD i false = false := by
  induction n generalizing i with
  | zero => cases i <;> rfl
  | succ m ih =>
    cases i with
    | zero => rfl
    | succ j => simp [List.replicate_succ, ih j]

theorem extractValid_all_truthy (orders : List Order)
    (hall : ∀ o ∈ orders,
      pyTruthy (orderLat o) = true ∧ pyTruthy (orderLon o) = true) :
    extractValid orders =
      (orders.map fun o => (((orderLat o).getD 0, (orderLon o).getD 0) : Point),
        List.range orders.length) := by
  have hs : ∀ m, m ≤ orders.length →
      (List.range m).foldl (extractStep orders) ([], []) =
        ((orders.take m).map
          (fun o => (((orderLat o).getD 0, (orderLon o).getD 0) : Point)),
          List.range m) := by
    intro m
    induction m with
    | zero => intro _; rfl
    | succ k ih =>
      intro hk
      have hklt : k < orders.length := by omega
      rw [List.range_succ, List.foldl_append, ih (by omega), List.foldl_cons,
        List.foldl_nil]
      have hgetD : orders.getD k ⟨none, none, none, none⟩ = orders[k] := by
        rw [List.getD_eq_getElem?_getD, List.getElem?_eq_getElem hklt,
          Option.getD_some]
      have htr := hall orders[k] (List.getElem_mem hklt)
      simp only [extractStep, hgetD]
      rw [htr.1, htr.2]
      simp only [Bool.and_self, if_true]
      rw [← List.range_succ]
      congr 1
      rw [List.take_succ, List.map_append, List.getElem?_eq_getElem hklt]
      rfl
  have := hs orders.length le_rfl
  unfold extractValid
  rw [this, List.take_length]

theorem get_neighbors_length_lt (M : Nat → Nat → ℚ) (n : Nat) (eps : ℚ)
    (p : Nat) (hp : p < n) : (get_neighbors M n eps p).length < n := by
  unfold get_neighbors
  have h : (List.filter (fun j => decide (j ≠ p ∧ M p j ≤ eps))
      (List.range n)).length < (List.range n).length := by
    apply List.length_filter_lt_length_iff_exists.mpr
    refine ⟨p, List.mem_range.mpr hp, ?_⟩
    simp
  simpa using h

theorem dbscanScan_all_noise (M : Nat → Nat → ℚ) (n : Nat) (eps : ℚ)
    (minPts : Nat) (_h1 : 1 ≤ n) (h2 : n < minPts) :
    dbscanScan M n eps minPts (List.range n) = ([], List.range n) := by
  have hs : ∀ m, m ≤ n →
      (List.range m).foldl (scanStep M n eps minPts (List.range n))
        (List.replicate n false, [], []) =
      (List.replicate n false, [], List.range m) := by
    intro m
    induction m with
    | zero => intro _; rfl
    | succ k ih =>
      intro hk
      rw [List.range_succ, List.foldl_append, ih (by omega), List.foldl_cons,
        List.foldl_nil]
      simp only [scanStep]
      rw [getD_replicate_false]
      simp only [Bool.false_eq_true, if_false]
      have hlen := get_neighbors_length_lt M n eps k (by omega)
      rw [if_pos (by omega : (get_neighbors M n eps k).length < minPts - 1)]
      have hgd : (List.range n).getD k 0 = k := by
        rw [List.getD_eq_getElem?_getD, List.getElem?_eq_getElem
          (by simpa using (by omega : k < n)), Option.getD_some,
          List.getElem_range]
      rw [hgd, ← List.range_succ]
  unfold dbscanScan
  rw [hs n le_rfl]

end RouteClustering

namespace RouteClustering

theorem clusterAvgAccum_count (dist : Point → Point → ℚ) (orders : List Order)
    (nlat nlon : ℚ) :
    ∀ (c : List Nat) (s : ℚ) (k : Nat),
      (∀ i ∈ c,
        pyTruthy (orderLat (orders.getD i ⟨none, none, none, none⟩)) = true ∧
        pyTruthy (orderLon (orders.getD i ⟨none, none, none, none⟩)) = true) →
      (c.foldl (avgStep dist orders nlat nlon) (s, k)).2 = k + c.length := by
  intro c
  induction c with
  | nil => intro s k _; rfl
  | cons i t ih =>
    intro s k h
    have hi := h i (List.mem_cons_self i t)
    rw [List.foldl_cons]
    have hstep : avgStep dist orders nlat nlon (s, k) i =
        (s + dist (nlat, nlon)
          (((orderLat (orders.getD i ⟨none, none, none, none⟩)).getD 0,
            (orderLon (orders.getD i ⟨none, none, none, none⟩)).getD 0)),
          k + 1) := by
      simp only [avgStep]
      rw [hi.1, hi.2]
      simp
    rw [hstep, ih _ _ fun j hj => h j (List.mem_cons_of_mem _ hj)]
    simp [List.length_cons]
    omega

theorem nearestClusterSel_single (dist : Point → Point → ℚ)
    (orders : List Order) (nlat nlon : ℚ) (c : List Nat) (hc : c ≠ [])
    (htr : ∀ i ∈ c,
      pyTruthy (orderLat (orders.getD i ⟨none, none, none, none⟩)) = true ∧
      pyTruthy (orderLon (orders.getD i ⟨none, none, none, none⟩)) = true) :
    (nearestClusterSel dist orders nlat nlon [c]).2 = 0 := by
  unfold nearestClusterSel
  have hr1 : List.range ([c] : List (List Nat)).length = [0] := rfl
  rw [hr1, List.foldl_cons, List.foldl_nil]
  have hcnt : (clusterAvgAccum dist orders nlat nlon (([c] : List (List Nat)).getD 0 [])).2 = c.length := by
    have := clusterAvgAccum_count dist orders nlat nlon c 0 0 htr
    simpa [clusterAvgAccum] using this
  have hpos : 0 < (clusterAvgAccum dist orders nlat nlon (([c] : List (List Nat)).getD 0 [])).2 := by
    rw [hcnt]
    exact List.length_pos.mpr hc
  simp only [if_pos hpos]

theorem assignNoise_single_merge (dist : Point → Point → ℚ)
    (orders : List Order)
    (htr : ∀ i, i < orders.length →
      pyTruthy (orderLat (orders.getD i ⟨none, none, none, none⟩)) = true ∧
      pyTruthy (orderLon (orders.getD i ⟨none, none, none, none⟩)) = true) :
    ∀ (l : List Nat) (c : List Nat), c ≠ [] →
      (∀ i ∈ l, i < orders.length) → (∀ i ∈ c, i < orders.length) →
      assignNoise dist orders [c] l = [c ++ l] := by
  intro l
  induction l with
  | nil => intro c _ _ _; simp [assignNoise]
  | cons i t ih =>
    intro c hc hl hcm
    have hi := htr i (hl i (List.mem_cons_self i t))
    have hstep : noiseStep dist orders [c] i = [c ++ [i]] := by
      simp only [noiseStep]
      rw [hi.1, hi.2]
      have hsel := nearestClusterSel_single dist orders
        ((orderLat (orders.getD i ⟨none, none, none, none⟩)).getD 0)
        ((orderLon (orders.getD i ⟨none, none, none, none⟩)).getD 0) c hc
        (fun j hj => htr j (hcm j hj))
      simp only [Bool.not_true, Bool.or_self, Bool.false_eq_true, if_false,
        List.isEmpty_cons, hsel]
      rfl
    unfold assignNoise
    rw [List.foldl_cons, hstep]
    have hrec := ih (c ++ [i]) (by simp)
      (fun j hj => hl j (List.mem_cons_of_mem _ hj))
      (fun j hj => by
        rcases List.mem_append.mp hj with hj | hj
        · exact hcm j hj
        · rw [List.mem_singleton.mp hj]
          exact hl i (List.mem_cons_self i t))
    unfold assignNoise at hrec
    rw [hrec, List.append_assoc, List.singleton_append]

end RouteClustering

namespace RouteClustering

theorem cluster_orders_dbscan_small (env : Env) (orders : List Order)
    (eps : ℚ) (minPts : Nat)
    (hall : ∀ o ∈ orders,
      pyTruthy (orderLat o) = true ∧ pyTruthy (orderLon o) = true)
    (h1 : 1 ≤ orders.length) (h2 : orders.length < minPts) :
    cluster_orders_dbscan env orders eps minPts =
      [List.range orders.length] := by
  have htr : ∀ i, i < orders.length →
      pyTruthy (orderLat (orders.getD i ⟨none, none, none, none⟩)) = true ∧
      pyTruthy (orderLon (orders.getD i ⟨none, none, none, none⟩)) = true := by
    intro i hi
    have hgetD : orders.getD i ⟨none, none, none, none⟩ = orders[i] := by
      rw [List.getD_eq_getElem?_getD, List.getElem?_eq_getElem hi,
        Option.getD_some]
    rw [hgetD]
    exact hall orders[i] (List.getElem_mem hi)
  have hnil : orders.isEmpty = false := by
    rw [List.isEmpty_eq_false]
    intro h
    rw [h] at h1
    simp at h1
  have hev := extractValid_all_truthy orders hall
  simp only [cluster_orders_dbscan, hnil, Bool.false_eq_true, if_false, hev]
  have hmapnil : (List.map
      (fun o => (((orderLat o).getD 0, (orderLon o).getD 0) : Point))
      orders).isEmpty = false := by
    rw [List.isEmpty_eq_false]
    intro hmap
    have hord : orders = [] := by simpa using hmap
    rw [hord] at h1
    simp at h1
  rw [hmapnil]
  simp only [Bool.false_eq_true, if_false, List.length_map]
  rw [dbscanScan_all_noise _ _ _ _ h1 h2]
  obtain ⟨m, hm⟩ : ∃ m, orders.length = m + 1 := ⟨orders.length - 1, by omega⟩
  rw [hm, List.range_succ_eq_map]
  unfold assignNoise
  rw [List.foldl_cons]
  have hstep0 : noiseStep env.dist orders [] 0 = [[0]] := by
    simp [noiseStep]
  rw [hstep0]
  have hmerge := assignNoise_single_merge env.dist orders htr
    (List.map Nat.succ (List.range m)) [0] (by simp)
    (fun j hj => by
      obtain ⟨a, ha, rfl⟩ := List.mem_map.mp hj
      have := List.mem_range.mp ha
      omega)
    (fun j hj => by
      rw [List.mem_singleton.mp hj]
      omega)
  unfold assignNoise at hmerge
  rw [hmerge, List.singleton_append]

theorem cluster_orders_kmeans_small (env : Env) (orders : List Order)
    (k : Nat) (hk : 1 ≤ k) (hlt : (extractValid orders).1.length < k) :
    cluster_orders_kmeans env orders k 100 =
      (extractValid orders).2.map fun idx => [idx] := by
  cases he : orders.isEmpty with
  | true =>
    have : orders = [] := List.isEmpty_iff.mp he
    subst this
    rfl
  | false =>
    simp only [cluster_orders_kmeans, he, Bool.false_or]
    rw [decide_eq_false (by omega : ¬ k = 0)]
    simp only [Bool.false_eq_true, if_false]
    rw [if_pos hlt]

theorem splitLargeClusters_of_le (maxO : Nat) :
    ∀ (cs : List (List Nat)) (acc : List (List Nat)),
      (∀ c ∈ cs, c.length ≤ maxO) →
      cs.foldl (splitStep maxO) acc = acc ++ cs := by
  intro cs
  induction cs with
  | nil => intro acc _; simp
  | cons c t ih =>
    intro acc h
    rw [List.foldl_cons]
    have hstep : splitStep maxO acc c = acc ++ [c] := by
      unfold splitStep
      rw [if_pos (h c (List.mem_cons_self c t))]
    rw [hstep, ih _ fun c' hc' => h c' (List.mem_cons_of_mem _ hc')]
    simp

theorem splitLargeClusters_id (maxO : Nat) (cs : List (List Nat))
    (h : ∀ c ∈ cs, c.length ≤ maxO) :
    splitLargeClusters maxO cs = cs := by
  unfold splitLargeClusters
  rw [splitLargeClusters_of_le maxO cs [] h]
  simp

/-- C5 (amended): on inputs with fewer geolocated points than the relevant
threshold the two strategies differ — the k-means path (fewer points than
the requested cluster count) returns one singleton cluster per point, while
the DBSCAN path (fewer points than `minClusterSize`) folds every point into
a single merged cluster: the first noise point seeds it and each subsequent
noise point joins it as the only existing cluster. -/
theorem clusterers_on_small_inputs (env : Env) (orders : List Order)
    (k minPts maxOrders : Nat) (eps : ℚ)
    (hall : ∀ o ∈ orders,
      pyTruthy (orderLat o) = true ∧ pyTruthy (orderLon o) = true)
    (hmax : 1 ≤ maxOrders) :
    (1 ≤ k → orders.length < k →
      cluster_orders env orders "kmeans" eps minPts maxOrders (some k) =
        (List.range orders.length).map fun i => [i]) ∧
    (1 ≤ orders.length → orders.length < minPts →
      orders.length ≤ maxOrders →
      cluster_orders env orders "dbscan" eps minPts maxOrders none =
        [List.range orders.length]) := by
  have hev := extractValid_all_truthy orders hall
  constructor
  · intro hk hlt
    cases he : orders.isEmpty with
    | true =>
      have : orders = [] := List.isEmpty_iff.mp he
      subst this
      rfl
    | false =>
      simp only [cluster_orders, he, Bool.false_eq_true, if_false]
      have hdisp : (("kmeans" == "kmeans") &&
          ((some k).getD 0 != 0)) = true := by
        simp only [Option.getD_some]
        rw [beq_self_eq_true]
        simp only [Bool.true_and]
        exact bne_iff_ne.mpr (by omega)
      rw [hdisp]
      simp only [if_true, Option.getD_some]
      rw [cluster_orders_kmeans_small env orders k hk
        (by rw [hev]; simpa using hlt)]
      rw [hev]
      apply splitLargeClusters_id
      intro c hc
      obtain ⟨i, _, rfl⟩ := List.mem_map.mp hc
      simpa using hmax
  · intro h1 h2 h3
    have hnil : orders.isEmpty = false := by
      rw [List.isEmpty_eq_false]
      intro h
      rw [h] at h1
      simp at h1
    simp only [cluster_orders, hnil, Bool.false_eq_true, if_false]
    have hdisp : (("dbscan" == "kmeans") &&
        ((none : Option Nat).getD 0 != 0)) = false := by decide
    rw [hdisp]
    simp only [Bool.false_eq_true, if_false]
    rw [cluster_orders_dbscan_small env orders eps minPts hall h1 h2]
    apply splitLargeClusters_id
    intro c hc
    rw [List.mem_singleton.mp hc]
    simpa using h3

/-- C5 (counterexample): two geolocated orders with `minClusterSize = 3`
under the DBSCAN default path produce the single merged cluster `[[0, 1]]`
— one cluster for two points, not one singleton cluster per point. -/
theorem small_input_singletons_counterexample :
    cluster_orders offlineEnv closeOrders2 "dbscan" 10 3 40 none = [[0, 1]] ∧
    (cluster_orders offlineEnv closeOrders2 "dbscan" 10 3 40 none).length =
      1 ∧
    closeOrders2.length = 2 := by
  have hdb := cluster_orders_dbscan_small offlineEnv closeOrders2 10 3
    (by decide) (by decide) (by decide)
  have hmain : cluster_orders offlineEnv closeOrders2 "dbscan" 10 3 40 none =
      [[0, 1]] := by
    simp only [cluster_orders]
    rw [if_neg (by decide : ¬ (closeOrders2.isEmpty = true))]
    rw [(by decide : (("dbscan" == "kmeans") &&
      ((none : Option Nat).getD 0 != 0)) = false)]
    simp only [Bool.false_eq_true, if_false]
    rw [hdb]
    decide
  exact ⟨hmain, by rw [hmain]; rfl, by decide⟩

theorem clusterers_on_small_inputs_witness :
    (∀ o ∈ closeOrders2,
      pyTruthy (orderLat o) = true ∧ pyTruthy (orderLon o) = true) ∧
    cluster_orders offlineEnv closeOrders2 "kmeans" 10 3 40 (some 5) =
      (List.range closeOrders2.length).map (fun i => [i]) ∧
    cluster_orders offlineEnv closeOrders2 "dbscan" 10 3 40 none =
      [List.range closeOrders2.length] := by
  have h := clusterers_on_small_inputs offlineEnv closeOrders2 5 3 40 10
    (by decide) (by decide)
  exact ⟨by decide, h.1 (by decide) (by decide),
    h.2 (by decide) (by decide) (by decide)⟩

end RouteClustering

namespace RouteCalculator

theorem complete_route_ok_witness :
    pyTruthy (orderLat demoDepot) = true ∧
    (∃ o ∈ [demoOrder],
      pyTruthy (orderLat o) = true ∧ pyTruthy (orderLon o) = true) ∧
    (∀ i ∈ (some [(0 : Int)]).getD [],
      (pyIndex (normalizedOrders [demoOrder]) i).isSome = true) ∧
    ∃ r, calculate_complete_route offlineEnv demoDepot [demoOrder] []
      (some [0]) (some 0) = Except.ok r :=
  ⟨by decide, by decide, by decide,
    complete_route_ok offlineEnv demoDepot [demoOrder] [] (some [0]) (some 0)
      (by decide) (by decide) (by decide) (by decide)⟩

end RouteCalculator

namespace DriverAssigner

unseal List.merge List.mergeSort in
/-- C7 (counterexample): two equally loaded available drivers listed as
`[id 2, id 1]` and one cluster: the balanced strategy assigns the cluster to
driver 2, the first driver in the list order, not to the lowest identifier
1. -/
theorem balanced_tiebreak_counterexample :
    (assign_drivers_to_clusters [[0]] [driverTwo, driverOne] "balanced").map
      (fun a => a.driver_id) = [2] ∧
    driverTwo.id = 2 ∧ driverOne.id = 1 ∧
    driverTwo.available = true ∧ driverOne.available = true := by
  refine ⟨by decide, rfl, rfl, rfl, rfl⟩

theorem head_filter_first {α : Type} (p : α → Bool) :
    ∀ (l : List α) (a : α), (l.filter p).head? = some a →
      ∃ k, ∃ hk : k < l.length, l.get ⟨k, hk⟩ = a ∧ p a = true ∧
        ∀ j, ∀ hj : j < l.length, j < k → p (l.get ⟨j, hj⟩) = false := by
  intro l
  induction l with
  | nil => intro a h; simp at h
  | cons x t ih =>
    intro a h
    cases hpx : p x with
    | true =>
      rw [List.filter_cons_of_pos hpx, List.head?_cons, Option.some_inj] at h
      subst h
      exact ⟨0, by simp, rfl, hpx, fun j hj hj0 => absurd hj0 (Nat.not_lt_zero j)⟩
    | false =>
      rw [List.filter_cons_of_neg (by simp [hpx])] at h
      obtain ⟨k, hk, hget, hpa, hprev⟩ := ih a h
      refine ⟨k + 1, by simpa using hk, hget, hpa, ?_⟩
      intro j hj hjk
      cases j with
      | zero => exact hpx
      | succ j' => exact hprev j' (by simpa using hj) (by omega)

/-- C7 (amended): under the balanced strategy the clusters are processed in
size-descending order (the sorted pass is a permutation of the enumerated
clusters), each cluster goes to a driver of minimal current workload with
ties broken by the earliest position in the available-driver list — not by
the lowest driver identifier — and that driver's workload then grows by the
cluster's size while every other driver's workload is unchanged. -/
theorem balanced_assignment_characterization :
    (∀ wl : List (Nat × Nat), wl ≠ [] →
      ∃ k, ∃ hk : k < wl.length,
        pickDriver wl = some (wl.get ⟨k, hk⟩).1 ∧
        (∀ m, ∀ hm : m < wl.length,
          (wl.get ⟨k, hk⟩).2 ≤ (wl.get ⟨m, hm⟩).2) ∧
        (∀ m, ∀ hm : m < wl.length, m < k →
          (wl.get ⟨k, hk⟩).2 < (wl.get ⟨m, hm⟩).2)) ∧
    (∀ cs : List (Nat × Nat), (sortClustersDesc cs).Perm cs ∧
      (sortClustersDesc cs).Pairwise fun a b => b.2 ≤ a.2) ∧
    (∀ (wl : List (Nat × Nat)) (d sz : Nat) (p : Nat × Nat), p ∈ wl →
      (p.1 = d → (p.1, p.2 + sz) ∈ updateWorkload wl d sz) ∧
      (p.1 ≠ d → p ∈ updateWorkload wl d sz)) := by
  refine ⟨?_, ?_, ?_⟩
  · intro wl hne
    unfold pickDriver
    cases hmin : (wl.map Prod.snd).min? with
    | none =>
      rw [List.min?_eq_none_iff] at hmin
      rw [List.map_eq_nil_iff] at hmin
      exact absurd hmin hne
    | some m =>
      have hminp : m ∈ wl.map Prod.snd ∧ ∀ b ∈ wl.map Prod.snd, m ≤ b := by
        rw [List.min?_eq_some_iff] at hmin
        exact hmin
        · intros; exact Nat.le_refl _
        · intro a b; exact min_choice a b
        · intros; exact le_min_iff
      have hfilne : wl.filter (fun q => q.2 == m) ≠ [] := by
        obtain ⟨q, hq, hq2⟩ := List.mem_map.mp hminp.1
        intro hnil
        have : q ∈ wl.filter fun q => q.2 == m :=
          List.mem_filter.mpr ⟨hq, by simp [hq2]⟩
        rw [hnil] at this
        simp at this
      obtain ⟨a, ha⟩ : ∃ a,
          (wl.filter fun q => q.2 == m).head? = some a := by
        cases hf : wl.filter fun q => q.2 == m with
        | nil => exact absurd hf hfilne
        | cons y ys => exact ⟨y, rfl⟩
      obtain ⟨k, hk, hget, hpa, hprev⟩ := head_filter_first _ wl a ha
      refine ⟨k, hk, ?_, ?_, ?_⟩
      · show Option.map Prod.fst
          (wl.filter fun q => q.2 == m).head? = some (wl.get ⟨k, hk⟩).1
        rw [ha, hget]
        rfl
      · intro j hj
        have h2 : (wl.get ⟨k, hk⟩).2 = m := by
          rw [hget]
          exact beq_iff_eq.mp hpa
        rw [h2]
        exact hminp.2 _ (List.mem_map.mpr ⟨_, List.get_mem wl j hj, rfl⟩)
      · intro j hj hjk
        have h2 : (wl.get ⟨k, hk⟩).2 = m := by
          rw [hget]
          exact beq_iff_eq.mp hpa
        have hne2 : (wl.get ⟨j, hj⟩).2 ≠ m := by
          intro heq
          have hp := hprev j hj hjk
          rw [heq] at hp
          simp at hp
        have hle := hminp.2 (wl.get ⟨j, hj⟩).2
          (List.mem_map.mpr ⟨_, List.get_mem wl j hj, rfl⟩)
        rw [h2]
        omega
  · intro cs
    refine ⟨List.mergeSort_perm cs _, ?_⟩
    have hs := @List.sorted_mergeSort (Nat × Nat)
      (fun a b => decide (b.2 ≤ a.2))
      (by
        intro a b c hab hbc
        simp only [decide_eq_true_eq] at *
        omega)
      (by
        intro a b
        rcases Nat.le_total b.2 a.2 with h | h <;> simp [h])
      cs
    exact hs.imp fun h => of_decide_eq_true h
  · intro wl d sz p hp
    constructor
    · intro h1
      unfold updateWorkload
      refine List.mem_map.mpr ⟨p, hp, ?_⟩
      rw [if_pos h1, h1]
    · intro h1
      unfold updateWorkload
      exact List.mem_map.mpr ⟨p, hp, if_neg h1⟩

theorem balanced_assignment_characterization_witness :
    (∃ k, ∃ hk : k < ([(2, 0), (1, 0)] : List (Nat × Nat)).length,
      pickDriver [(2, 0), (1, 0)] =
        some (([(2, 0), (1, 0)] : List (Nat × Nat)).get ⟨k, hk⟩).1 ∧
      (∀ m, ∀ hm : m < ([(2, 0), (1, 0)] : List (Nat × Nat)).length,
        (([(2, 0), (1, 0)] : List (Nat × Nat)).get ⟨k, hk⟩).2 ≤
          (([(2, 0), (1, 0)] : List (Nat × Nat)).get ⟨m, hm⟩).2) ∧
      (∀ m, ∀ hm : m < ([(2, 0), (1, 0)] : List (Nat × Nat)).length, m < k →
        (([(2, 0), (1, 0)] : List (Nat × Nat)).get ⟨k, hk⟩).2 <
          (([(2, 0), (1, 0)] : List (Nat × Nat)).get ⟨m, hm⟩).2)) ∧
    (sortClustersDesc [(0, 1)]).Perm [(0, 1)] ∧
    (2, 0 + 5) ∈ updateWorkload [(2, 0), (1, 0)] 2 5 := by
  have h := balanced_assignment_characterization
  exact ⟨h.1 [(2, 0), (1, 0)] (by decide), (h.2.1 [(0, 1)]).1,
    (h.2.2 [(2, 0), (1, 0)] 2 5 (2, 0) (by decide)).1 rfl⟩

end DriverAssigner
